import Mathlib

/-!
Shallow embedding of the script-driven test input driver
(src/input/drivers/test_input.c) of RetroArch.

The driver parses a JSON script into a bounded array of step records
(the Step Store), and on every poll applies the steps whose trigger
frame has been strictly passed to a synthetic key-state table.

Machine integers of the C source (unsigned, uint64_t, uint16_t) are
modelled as Nat. The one place where 32-bit wrap-around is reachable
is the default-fill addition frame + 60 in KTifJSONObjectEndHandler
(an explicit script frame may lie anywhere below 2^32), so that
addition carries an explicit reduction modulo 2^32; all other modelled
arithmetic (counts bounded by 201, key codes, comparisons) stays far
below the width of its C type on every reachable input.
-/

/-- MAX_TEST_STEPS (test_input.c:32). -/
def MAX_TEST_STEPS : Nat := 200

/-- INPUT_TEST_COMMAND_PRESS_KEY (test_input.c:34). -/
def INPUT_TEST_COMMAND_PRESS_KEY : Nat := 1

/-- INPUT_TEST_COMMAND_RELEASE_KEY (test_input.c:35). -/
def INPUT_TEST_COMMAND_RELEASE_KEY : Nat := 2

/-- The reserved value 0xffff used by KTifJSONObjectEndHandler
(test_input.c:83,101) to mean that no frame member was seen since the
last stored record. -/
def SENTINEL_FRAME : Nat := 65535

/-- 2^32, the modulus of the C type unsigned that carries frame
values: the default-fill addition of KTifJSONObjectEndHandler
(test_input.c:84) is a 32-bit unsigned addition and wraps. -/
def UINT32_MOD : Nat := 4294967296

/-- Modelled from the spec: DEFAULT_MAX_PADS comes from an external
header (input_driver.h, not under src/); the Key State Table has
DEFAULT_MAX_PADS+1 rows and row DEFAULT_MAX_PADS is the reserved
virtual-keyboard slot. The exact value is immaterial to every claim;
RetroArch uses 16. -/
def DEFAULT_MAX_PADS : Nat := 16

/-- Modelled from the spec: RETROK_LAST is the size of the valid
key-code range, from the external libretro header (not under src/).
The claims use it only as the exclusive upper bound of valid key
codes; the libretro value is 324. -/
def RETROK_LAST : Nat := 324

/-- Modelled from the spec: RARCH_FIRST_CUSTOM_BIND from an external
header (not under src/); bound of the aggregate-mask loop in
test_input_state. RetroArch uses 16. -/
def RARCH_FIRST_CUSTOM_BIND : Nat := 16

/-- Modelled from the spec: RARCH_BIND_LIST_END from an external
header (not under src/); bound checked against the id argument in
test_input_state. The exact value is immaterial to the claims. -/
def RARCH_BIND_LIST_END : Nat := 112

/-- RETRO_DEVICE_JOYPAD from the libretro API. -/
def RETRO_DEVICE_JOYPAD : Nat := 1

/-- RETRO_DEVICE_KEYBOARD from the libretro API. -/
def RETRO_DEVICE_KEYBOARD : Nat := 3

/-- RETRO_DEVICE_ID_JOYPAD_MASK from the libretro API. -/
def RETRO_DEVICE_ID_JOYPAD_MASK : Nat := 256

/-- One entry of input_test_steps (struct input_test_step_t,
test_input.c:41-48). The C field named handled is the consumed flag
of the spec. -/
structure InputTestStep where
  frame : Nat
  action : Nat
  param_num : Nat
  param_str : String
  handled : Bool
deriving DecidableEq

/-- Default used with List.getD; corresponds to a zero-initialized
array entry. -/
def dummyStep : InputTestStep := ⟨0, 0, 0, "", false⟩

/-- The in-progress record of the incremental parser
(KTifJSONContext, test_input.c:64-72). The C param_str pointer being
NULL is modelled as the empty string, which the driver treats the
same way (string_is_empty). -/
structure KTifJSONContext where
  frame : Nat
  action : Nat
  param_num : Nat
  param_str : String
deriving DecidableEq

/-- One well-formed object of the script file: each member is either
present with a value or absent. Unknown members are ignored by
KTifJSONObjectMemberHandler (test_input.c:123) and are therefore not
modelled. -/
structure ScriptObj where
  frame : Option Nat
  action : Option Nat
  param_num : Option Nat
  param_str : Option String
deriving DecidableEq

/-- Default used with List.getD on scripts. -/
def dummyObj : ScriptObj := ⟨none, none, none, none⟩

/-- The parser-side mutable globals of test_input.c: the populated
prefix of input_test_steps (test_input.c:50), last_test_step
(test_input.c:55) and the parse context. current_test_step equals
steps.length throughout a parse, so it is not carried separately. -/
structure ParseState where
  steps : List InputTestStep
  last_test_step : Nat
  ctx : KTifJSONContext
deriving DecidableEq

/-- The globals at program start: empty store, last_test_step =
MAX_TEST_STEPS + 1 (test_input.c:55), zero-initialized context
(KTifJSONContext context = \x7b0\x7d, test_input.c:165). -/
def initialParseState : ParseState :=
  ⟨[], MAX_TEST_STEPS + 1, ⟨0, 0, 0, ""⟩⟩

/-- Effect of the member/number/string handlers
(KTifJSONObjectMemberHandler, KTifJSONNumberHandler,
KTifJSONStringHandler, test_input.c:105-158) over the members of one
object: each present member overwrites the corresponding context
field; the string handler ignores empty strings (test_input.c:146);
absent members leave the context untouched (the context is NOT reset
between objects, except for frame, see KTifJSONObjectEndHandler). -/
def applyObjectMembers (ctx : KTifJSONContext) (o : ScriptObj) : KTifJSONContext :=
  { frame := o.frame.getD ctx.frame
    action := o.action.getD ctx.action
    param_num := o.param_num.getD ctx.param_num
    param_str :=
      match o.param_str with
      | some s => if s = "" then ctx.param_str else s
      | none => ctx.param_str }

/-- The frame value stored by KTifJSONObjectEndHandler
(test_input.c:83-86): the context frame unless it equals the
sentinel, in which case the previous stored record's frame plus 60,
reduced modulo 2^32 (the addition is performed in the 32-bit unsigned
field frame and wraps), is used. When the context frame is the sentinel and nothing has been
stored yet, the C code reads input_test_steps[current_test_step - 1]
with current_test_step = 0, an out-of-bounds access (unsigned
wrap-around); that undefined behaviour is modelled as none. -/
def computeFrame (st : ParseState) : Option Nat :=
  if st.ctx.frame = SENTINEL_FRAME then
    match st.steps.getLast? with
    | some prev => some ((prev.frame + 60) % UINT32_MOD)
    | none => none
  else some st.ctx.frame

/-- The record stored by KTifJSONObjectEndHandler (test_input.c:83-97)
given the context and the resolved frame value. -/
def builtStep (ctx : KTifJSONContext) (f : Nat) : InputTestStep :=
  ⟨f, ctx.action, ctx.param_num,
   if ctx.param_str = "" then "" else ctx.param_str, false⟩

/-- KTifJSONObjectEndHandler (test_input.c:74-103): when the store is
at capacity the object is dropped (early return, before the context
frame is reset); otherwise the record is appended, last_test_step is
set to the new count, and the context frame is reset to the
sentinel. -/
def KTifJSONObjectEndHandler (st : ParseState) : Option ParseState :=
  if MAX_TEST_STEPS ≤ st.steps.length then some st
  else
    match computeFrame st with
    | none => none
    | some f =>
        some ⟨st.steps ++ [builtStep st.ctx f],
              st.steps.length + 1,
              { st.ctx with frame := SENTINEL_FRAME }⟩

/-- Processing of one complete object of the token stream: the member
handlers run over its members, then KTifJSONObjectEndHandler runs. -/
def processObject (st : ParseState) (o : ScriptObj) : Option ParseState :=
  KTifJSONObjectEndHandler { st with ctx := applyObjectMembers st.ctx o }

/-- The complete-object events delivered by the rjson callback parse
(test_input.c:202-208), in document order. -/
def parseObjects : List ScriptObj → ParseState → Option ParseState
  | [], st => some st
  | o :: rest, st =>
      match processObject st o with
      | none => none
      | some st1 => parseObjects rest st1

/-- Modelled from the spec: the inputs distinguished by
input_test_file_read. The rjson parser itself is not under src/; per
the spec, a token-stream error stops the delivery of further object
events while the objects completed before the error stand, so a read
is either a missing/unreadable file or a stream of complete objects
together with a flag recording whether a token-stream error followed
them. -/
inductive ReadInput where
  | missing
  | content (objs : List ScriptObj) (malformed : Bool)
deriving DecidableEq

/-- Result of input_test_file_read: the parser-side globals, the
boolean return value, and whether the capacity warning
(test_input.c:240-243) was emitted. -/
structure ReadResult where
  state : ParseState
  success : Bool
  overflow_warned : Bool
deriving DecidableEq

/-- input_test_file_read (test_input.c:162-256) from the initial
globals: a missing or unreadable file returns false before touching
the store; otherwise the object events are folded into the store,
success is set to true even when a token-stream error was diagnosed
(test_input.c:226-231), and the overflow warning fires iff
last_test_step is at least MAX_TEST_STEPS (test_input.c:240). The
trailing loop only logs and the final current_test_step = 0 is
implicit (steps.length is not reused). -/
def input_test_file_read : ReadInput → Option ReadResult
  | ReadInput.missing =>
      some ⟨initialParseState, false, false⟩
  | ReadInput.content objs _malformed =>
      match parseObjects objs initialParseState with
      | none => none
      | some st =>
          some ⟨st, true,
                if MAX_TEST_STEPS ≤ st.last_test_step then true else false⟩

/-- test_input_init (test_input.c:339-352): runs the file read, then
clamps last_test_step to 0 when it exceeds MAX_TEST_STEPS
(test_input.c:347-348). -/
def test_input_init (inp : ReadInput) : Option ReadResult :=
  (input_test_file_read inp).map fun r =>
    { r with state :=
        { r.state with last_test_step :=
            if MAX_TEST_STEPS < r.state.last_test_step then 0
            else r.state.last_test_step } }

/-- The Key State Table test_key_state (test_input.c:38), a
(DEFAULT_MAX_PADS+1) x RETROK_LAST array of uint16_t modelled as a
total function; only indices below those bounds are ever used. -/
def Table : Type := Nat → Nat → Nat

/-- A write to the reserved virtual-keyboard row
test_key_state[DEFAULT_MAX_PADS][k] (test_input.c:367,376). -/
def writeKey (t : Table) (k v : Nat) : Table :=
  fun i j => if i = DEFAULT_MAX_PADS ∧ j = k then v else t i j

/-- The body of the scan loop of test_input_poll (test_input.c:360-391)
for a single step record: a not-yet-handled step whose frame is
strictly below the current frame count is applied (press / release /
unknown action) and marked handled; the table write is guarded by
param_num < RETROK_LAST, the handled flag is not. -/
def pollStep (curr : Nat) (s : InputTestStep) (t : Table) : InputTestStep × Table :=
  if s.handled = false ∧ s.frame < curr then
    if s.action = INPUT_TEST_COMMAND_PRESS_KEY then
      ({ s with handled := true },
       if s.param_num < RETROK_LAST then writeKey t s.param_num 1 else t)
    else if s.action = INPUT_TEST_COMMAND_RELEASE_KEY then
      ({ s with handled := true },
       if s.param_num < RETROK_LAST then writeKey t s.param_num 0 else t)
    else ({ s with handled := true }, t)
  else (s, t)

/-- test_input_poll (test_input.c:354-392): scans the populated steps
in order (indices below last_test_step, which after init equals the
populated length), threading the key-state table. curr is the
video driver frame count observed at entry. -/
def test_input_poll (curr : Nat) (l : List InputTestStep) (t : Table) :
    List InputTestStep × Table :=
  match l with
  | [] => ([], t)
  | s :: rest =>
      ((pollStep curr s t).1 :: (test_input_poll curr rest (pollStep curr s t).2).1,
       (test_input_poll curr rest (pollStep curr s t).2).2)

/-- The step-record transformation performed by one poll, seen
element-wise (the handled flag is set exactly on due steps; frames,
actions and parameters are untouched). -/
def markHandled (curr : Nat) (s : InputTestStep) : InputTestStep :=
  if s.handled = false ∧ s.frame < curr then { s with handled := true } else s

/-- test_keyboard_free (test_input.c:268-275): clears rows 0 ..
DEFAULT_MAX_PADS - 1 of the table. Note the loop bound: the row
DEFAULT_MAX_PADS itself (the reserved virtual-keyboard slot, the only
row test_input_poll ever writes) is NOT cleared. -/
def test_keyboard_free (t : Table) : Table :=
  fun i j => if i < DEFAULT_MAX_PADS ∧ j < RETROK_LAST then 0 else t i j

/-- test_input_free_input (test_input.c:334-337). -/
def test_input_free_input (t : Table) : Table :=
  test_keyboard_free t

/-- One entry of the externally supplied binding table
(struct retro_keybind at the interface boundary). -/
structure Keybind where
  valid : Bool
  key : Nat
deriving DecidableEq

/-- The aggregate-mask loop of test_input_state (test_input.c:296-308)
over bind indices below the given bound; id is the queried id
(RETRO_DEVICE_ID_JOYPAD_MASK in the reachable call). -/
def joypadMaskRet (binds : Nat → Nat → Keybind) (lut : Nat → Nat)
    (t : Table) (port id : Nat) : Nat → Nat
  | 0 => 0
  | n + 1 =>
      joypadMaskRet binds lut t port id n |||
      (if (binds port n).valid = true ∧ id < RARCH_BIND_LIST_END ∧
          t DEFAULT_MAX_PADS (lut (binds port n).key) ≠ 0
       then 2 ^ n else 0)

/-- test_input_state (test_input.c:277-332). port is unsigned in C, so
the guard port <= 0 is port = 0; every branch that falls through the
switch returns 0. The int16_t return is modelled as Nat (all produced
values are non-negative). -/
def test_input_state (t : Table) (binds : Nat → Nat → Keybind)
    (lut : Nat → Nat) (port device idx id : Nat) : Nat :=
  if port ≤ 0 then
    if device = RETRO_DEVICE_JOYPAD then
      if id = RETRO_DEVICE_ID_JOYPAD_MASK then
        joypadMaskRet binds lut t port id RARCH_FIRST_CUSTOM_BIND
      else if (binds port id).valid = true then
        if id < RARCH_BIND_LIST_END ∧
           t DEFAULT_MAX_PADS (lut (binds port id).key) ≠ 0 then 1 else 0
      else 0
    else if device = RETRO_DEVICE_KEYBOARD then
      if id < RARCH_BIND_LIST_END then t DEFAULT_MAX_PADS (lut (binds port id).key)
      else 0
    else 0
  else 0

/-- How the frame of the stored record number i relates to the frame
member of script object number i (objects and records align one to
one below capacity). cur is the stored frame, prev the frame of the
record before it. -/
def frameSpecHolds (objFrame : Option Nat) (i cur prev : Nat) : Prop :=
  match objFrame with
  | none => cur = if i = 0 then 0 else (prev + 60) % UINT32_MOD
  | some v =>
      if v = SENTINEL_FRAME then i ≠ 0 ∧ cur = (prev + 60) % UINT32_MOD
      else cur = v

/-- Script with a single object that omits frame (spec scenario of
section 8). -/
def scriptOmitFirst : List ScriptObj := [⟨none, some 1, some 5, none⟩]

/-- Parse result of scriptOmitFirst. -/
def stOmitFirst : ParseState :=
  ⟨[⟨0, 1, 5, "", false⟩], 1, ⟨SENTINEL_FRAME, 1, 5, ""⟩⟩

/-- Script whose two objects both omit frame. -/
def scriptOmitBoth : List ScriptObj :=
  [⟨none, some 1, some 5, none⟩, ⟨none, some 2, some 5, none⟩]

/-- Parse result of scriptOmitBoth. -/
def stOmitBoth : ParseState :=
  ⟨[⟨0, 1, 5, "", false⟩, ⟨60, 2, 5, "", false⟩], 2, ⟨SENTINEL_FRAME, 2, 5, ""⟩⟩

/-- Script with an explicit first frame and an omitted second frame. -/
def scriptMono : List ScriptObj :=
  [⟨some 10, some 1, some 5, none⟩, ⟨none, some 2, some 5, none⟩]

/-- Parse result of scriptMono. -/
def stMono : ParseState :=
  ⟨[⟨10, 1, 5, "", false⟩, ⟨70, 2, 5, "", false⟩], 2, ⟨SENTINEL_FRAME, 2, 5, ""⟩⟩

/-- Read result for scriptMono. -/
def resMono : ReadResult := ⟨stMono, true, false⟩

/-- Script with explicitly decreasing frames. -/
def scriptDecreasing : List ScriptObj :=
  [⟨some 100, some 1, some 5, none⟩, ⟨some 5, some 2, some 5, none⟩]

/-- Parse result of scriptDecreasing. -/
def stDecreasing : ParseState :=
  ⟨[⟨100, 1, 5, "", false⟩, ⟨5, 2, 5, "", false⟩], 2, ⟨SENTINEL_FRAME, 2, 5, ""⟩⟩

/-- Script whose first frame is 65475, so the second record's default
frame lands exactly on the sentinel value. -/
def scriptNearSentinel : List ScriptObj :=
  [⟨some 65475, some 1, some 5, none⟩, ⟨some 65535, some 1, some 6, none⟩]

/-- Parse result of scriptNearSentinel. -/
def stNearSentinel : ParseState :=
  ⟨[⟨65475, 1, 5, "", false⟩, ⟨65535, 1, 6, "", false⟩], 2, ⟨SENTINEL_FRAME, 1, 6, ""⟩⟩

/-- Script whose second object explicitly sets frame to the sentinel
value 65535. -/
def scriptExplicitSentinel : List ScriptObj :=
  [⟨some 10, some 1, some 5, none⟩, ⟨some 65535, some 1, some 6, none⟩]

/-- Parse result of scriptExplicitSentinel. -/
def stExplicitSentinel : ParseState :=
  ⟨[⟨10, 1, 5, "", false⟩, ⟨70, 1, 6, "", false⟩], 2, ⟨SENTINEL_FRAME, 1, 6, ""⟩⟩

/-- Result of test_input_init on a missing file. -/
def resMissing : ReadResult := ⟨⟨[], 0, ⟨0, 0, 0, ""⟩⟩, false, false⟩

/-- A table with every entry set (every key pressed on every slot). -/
def fullTable : Table := fun _ _ => 1

/-- The all-clear table. -/
def zeroTable : Table := fun _ _ => 0

/-- A press step with trigger frame 5. -/
def stepAt5 : InputTestStep := ⟨5, 1, 7, "", false⟩

/-- A step with an unknown action code and an out-of-range key code. -/
def oddStep : InputTestStep := ⟨1, 7, 400, "", false⟩

/-- A binding table whose entries are all valid and bound to key 3. -/
def oneBinds : Nat → Nat → Keybind := fun _ _ => ⟨true, 3⟩

/-- An identity keysym lookup table. -/
def idLut : Nat → Nat := fun k => k

/-- Indexing with a default commutes with a left append when the index
falls in the left part. -/
theorem getD_append_left {α : Type} (l1 l2 : List α) (d : α) :
    ∀ i, i < l1.length → (l1 ++ l2).getD i d = l1.getD i d := by
  induction l1 with
  | nil => intro i h; exact absurd h (Nat.not_lt_zero i)
  | cons a t ih =>
    intro i h
    cases i with
    | zero => rfl
    | succ n => exact ih n (Nat.lt_of_succ_lt_succ h)

/-- Indexing at the length of the left part of an append hits the
first appended element. -/
theorem getD_append_self {α : Type} (l1 : List α) (x : α) (l2 : List α) (d : α) :
    (l1 ++ x :: l2).getD l1.length d = x := by
  induction l1 with
  | nil => rfl
  | cons a t ih => exact ih

/-- Indexing with a default commutes with map at in-range indices. -/
theorem getD_map {α β : Type} (f : α → β) (l : List α) (d : α) (e : β) :
    ∀ i, i < l.length → (l.map f).getD i e = f (l.getD i d) := by
  induction l with
  | nil => intro i h; exact absurd h (Nat.not_lt_zero i)
  | cons a t ih =>
    intro i h
    cases i with
    | zero => rfl
    | succ n => exact ih n (Nat.lt_of_succ_lt_succ h)

/-- getLast? agrees with getD at the last position. -/
theorem getLastQ_getD {α : Type} :
    ∀ (l : List α) (x d : α), l.getLast? = some x → l.getD (l.length - 1) d = x := by
  intro l
  induction l with
  | nil => intro x d h; exact Option.noConfusion h
  | cons a t ih =>
    intro x d h
    cases t with
    | nil => exact Option.some.inj h
    | cons b t2 =>
      rw [List.getLast?_cons_cons] at h
      exact ih x d h

/-- The step component of pollStep is markHandled: every branch of the
applied case stores the same record with handled set. -/
theorem pollStep_fst (curr : Nat) (s : InputTestStep) (t : Table) :
    (pollStep curr s t).1 = markHandled curr s := by
  unfold pollStep markHandled
  by_cases h : s.handled = false ∧ s.frame < curr
  · rw [if_pos h, if_pos h]
    by_cases h1 : s.action = INPUT_TEST_COMMAND_PRESS_KEY
    · rw [if_pos h1]
    · rw [if_neg h1]
      by_cases h2 : s.action = INPUT_TEST_COMMAND_RELEASE_KEY
      · rw [if_pos h2]
      · rw [if_neg h2]
  · rw [if_neg h, if_neg h]

/-- A step that is already handled, or whose frame has not been
strictly passed, is left alone with the table untouched. -/
theorem pollStep_not_due (curr : Nat) (s : InputTestStep) (t : Table)
    (h : ¬(s.handled = false ∧ s.frame < curr)) : pollStep curr s t = (s, t) := by
  unfold pollStep
  rw [if_neg h]

/-- The step records after a poll are the element-wise markHandled of
the records before it. -/
theorem poll_fst (curr : Nat) :
    ∀ (l : List InputTestStep) (t : Table),
      (test_input_poll curr l t).1 = l.map (markHandled curr) := by
  intro l
  induction l with
  | nil => intro t; rfl
  | cons s rest ih =>
    intro t
    show (pollStep curr s t).1 ::
        (test_input_poll curr rest (pollStep curr s t).2).1 = _
    rw [pollStep_fst, ih, List.map_cons]

/-- After markHandled, every due step carries a true handled flag. -/
theorem markHandled_due (curr : Nat) (s : InputTestStep) :
    (markHandled curr s).frame < curr → (markHandled curr s).handled = true := by
  unfold markHandled
  by_cases h : s.handled = false ∧ s.frame < curr
  · rw [if_pos h]
    intro
    rfl
  · rw [if_neg h]
    intro hf
    cases hh : s.handled with
    | true => rfl
    | false => exact absurd ⟨hh, hf⟩ h

/-- A poll over records that are all consumed-or-not-yet-due changes
nothing at all. -/
theorem poll_all_consumed (curr : Nat) :
    ∀ (l : List InputTestStep) (t : Table),
      (∀ s, s ∈ l → s.frame < curr → s.handled = true) →
      test_input_poll curr l t = (l, t) := by
  intro l
  induction l with
  | nil => intro t _; rfl
  | cons s rest ih =>
    intro t h
    have hs : pollStep curr s t = (s, t) := by
      apply pollStep_not_due
      intro hc
      have hha := h s (List.mem_cons_self s rest) hc.2
      rw [hha] at hc
      exact Bool.noConfusion hc.1
    show ((pollStep curr s t).1 ::
        (test_input_poll curr rest (pollStep curr s t).2).1,
        (test_input_poll curr rest (pollStep curr s t).2).2) = _
    rw [hs]
    have ih2 := ih t (fun s2 hm => h s2 (List.mem_cons_of_mem s hm))
    rw [ih2]

/-- C5: invoking the advance operation (test_input_poll) a second time
with the same observed frame count immediately after a first
invocation changes neither the Key State Table nor any step record:
every step due at that frame was already marked consumed by the first
call. -/
theorem advance_idempotent (curr : Nat) (l : List InputTestStep) (t : Table) :
    test_input_poll curr (test_input_poll curr l t).1 (test_input_poll curr l t).2 =
      test_input_poll curr l t := by
  have h : ∀ s, s ∈ (test_input_poll curr l t).1 →
      s.frame < curr → s.handled = true := by
    rw [poll_fst]
    intro s hm
    obtain ⟨s0, _, rfl⟩ := List.mem_map.mp hm
    exact markHandled_due curr s0
  have hfix := poll_all_consumed curr (test_input_poll curr l t).1
    (test_input_poll curr l t).2 h
  rw [hfix]

/-- C1: a step record that is not yet consumed is not applied by an
advance whose observed frame count equals the step's trigger frame;
it is marked consumed by the first advance whose observed frame count
is the trigger frame plus one or later (the trigger condition of
test_input_poll is strictly greater-than). -/
theorem step_fires_strictly_after_frame (curr : Nat) (l : List InputTestStep)
    (t : Table) (i : Nat) (hi : i < l.length)
    (hh : (l.getD i dummyStep).handled = false) :
    (curr = (l.getD i dummyStep).frame →
      ((test_input_poll curr l t).1.getD i dummyStep).handled = false) ∧
    ((l.getD i dummyStep).frame < curr →
      ((test_input_poll curr l t).1.getD i dummyStep).handled = true) := by
  rw [poll_fst, getD_map (markHandled curr) l dummyStep dummyStep i hi]
  constructor
  · intro he
    unfold markHandled
    rw [if_neg]
    · exact hh
    · intro hc
      rw [← he] at hc
      exact Nat.lt_irrefl curr hc.2
  · intro hlt
    unfold markHandled
    rw [if_pos ⟨hh, hlt⟩]

/-- C1 witness: a press step with trigger frame 5 is untouched by an
advance at frame 5 and consumed by an advance at frame 6. -/
theorem step_fires_strictly_after_frame_witness :
    (((test_input_poll 5 [stepAt5] zeroTable).1.getD 0 dummyStep).handled = false) ∧
    (((test_input_poll 6 [stepAt5] zeroTable).1.getD 0 dummyStep).handled = true) :=
  ⟨(step_fires_strictly_after_frame 5 [stepAt5] zeroTable 0 (by decide)
      (by decide)).1 (by decide),
   (step_fires_strictly_after_frame 6 [stepAt5] zeroTable 0 (by decide)
      (by decide)).2 (by decide)⟩

/-- C6: a triggered step is marked consumed by pollStep whatever
branch handles it; when its key code is out of range (at least
RETROK_LAST) or its action code is unknown, it is consumed without
mutating the Key State Table; and a step already consumed is never
touched again, so each step is applied at most once. -/
theorem step_consumed_once (curr : Nat) (s : InputTestStep) (t : Table) :
    (s.handled = false → s.frame < curr →
      ((pollStep curr s t).1.handled = true ∧
       ((RETROK_LAST ≤ s.param_num ∨
         (s.action ≠ INPUT_TEST_COMMAND_PRESS_KEY ∧
          s.action ≠ INPUT_TEST_COMMAND_RELEASE_KEY)) →
        (pollStep curr s t).2 = t))) ∧
    (s.handled = true → pollStep curr s t = (s, t)) := by
  constructor
  · intro hh hf
    unfold pollStep
    rw [if_pos ⟨hh, hf⟩]
    by_cases h1 : s.action = INPUT_TEST_COMMAND_PRESS_KEY
    · rw [if_pos h1]
      refine ⟨rfl, ?_⟩
      intro hor
      show (if s.param_num < RETROK_LAST then writeKey t s.param_num 1 else t) = t
      rcases hor with hor | hor
      · rw [if_neg (Nat.not_lt.mpr hor)]
      · exact absurd h1 hor.1
    · rw [if_neg h1]
      by_cases h2 : s.action = INPUT_TEST_COMMAND_RELEASE_KEY
      · rw [if_pos h2]
        refine ⟨rfl, ?_⟩
        intro hor
        show (if s.param_num < RETROK_LAST then writeKey t s.param_num 0 else t) = t
        rcases hor with hor | hor
        · rw [if_neg (Nat.not_lt.mpr hor)]
        · exact absurd h2 hor.2
      · rw [if_neg h2]
        exact ⟨rfl, fun _ => rfl⟩
  · intro hh
    apply pollStep_not_due
    intro hc
    rw [hh] at hc
    exact Bool.noConfusion hc.1

/-- C6 witness: a due step with unknown action 7 and out-of-range key
code 400 is marked consumed and leaves the table untouched. -/
theorem step_consumed_once_witness :
    (pollStep 5 oddStep zeroTable).1.handled = true ∧
    (pollStep 5 oddStep zeroTable).2 = zeroTable :=
  ⟨((step_consumed_once 5 oddStep zeroTable).1 (by decide) (by decide)).1,
   ((step_consumed_once 5 oddStep zeroTable).1 (by decide) (by decide)).2
     (Or.inl (by decide))⟩

/-- C3 evaluated at the failing input: starting from a table in which
every key is pressed, the teardown operation clears slot 0 but leaves
the reserved virtual-keyboard slot DEFAULT_MAX_PADS untouched: its
entries stay 1, contradicting the claim that every entry of every
slot becomes 0 (the loop of test_keyboard_free stops at
DEFAULT_MAX_PADS - 1). -/
theorem free_misses_virtual_keyboard_slot :
    test_input_free_input fullTable DEFAULT_MAX_PADS 5 = 1 ∧
    test_input_free_input fullTable 0 5 = 0 := by
  constructor
  · decide
  · decide

/-- C8: for every slot (port) other than 0 the query operation
test_input_state returns 0 unconditionally, regardless of the key
state table, bindings, lookup table, device, index and id. -/
theorem nonzero_port_returns_zero (t : Table) (binds : Nat → Nat → Keybind)
    (lut : Nat → Nat) (port device idx id : Nat) (h : 0 < port) :
    test_input_state t binds lut port device idx id = 0 := by
  unfold test_input_state
  rw [if_neg (Nat.not_le.mpr h)]

/-- C8 witness: a joypad query on port 1 returns 0 even when every key
of every slot is pressed and every binding is valid. -/
theorem nonzero_port_returns_zero_witness :
    test_input_state fullTable oneBinds idLut 1 RETRO_DEVICE_JOYPAD 0 5 = 0 :=
  nonzero_port_returns_zero fullTable oneBinds idLut 1 RETRO_DEVICE_JOYPAD 0 5
    (by decide)

/-- Unfolding lemma for parseObjects on the empty stream. -/
theorem parseObjects_nil (st : ParseState) : parseObjects [] st = some st := rfl

/-- Unfolding lemma for parseObjects on a cons. -/
theorem parseObjects_cons (o : ScriptObj) (rest : List ScriptObj) (st : ParseState) :
    parseObjects (o :: rest) st =
      match processObject st o with
      | none => none
      | some st1 => parseObjects rest st1 := rfl

/-- Case analysis of a successful computeFrame: either the context
frame is not the sentinel and is stored as is, or it is the sentinel,
the store is nonempty, and the last stored frame plus 60 results. -/
theorem computeFrame_spec (st : ParseState) (f : Nat)
    (h : computeFrame st = some f) :
    (st.ctx.frame ≠ SENTINEL_FRAME ∧ f = st.ctx.frame) ∨
    (st.ctx.frame = SENTINEL_FRAME ∧ st.steps ≠ [] ∧
      f = ((st.steps.getD (st.steps.length - 1) dummyStep).frame + 60)
        % UINT32_MOD) := by
  unfold computeFrame at h
  by_cases hs : st.ctx.frame = SENTINEL_FRAME
  · rw [if_pos hs] at h
    cases hl : st.steps.getLast? with
    | none => rw [hl] at h; exact Option.noConfusion h
    | some prev =>
      rw [hl] at h
      refine Or.inr ⟨hs, ?_, ?_⟩
      · intro hnil
        rw [hnil] at hl
        exact Option.noConfusion hl
      · rw [getLastQ_getD st.steps prev dummyStep hl]
        exact (Option.some.inj h).symm
  · rw [if_neg hs] at h
    exact Or.inl ⟨hs, (Option.some.inj h).symm⟩

/-- Case analysis of a successful KTifJSONObjectEndHandler: either the
store was at capacity and only the context changed (kept as is by the
early return), or the store was below capacity and the built record
was appended. -/
theorem KTifJSONObjectEndHandler_cases (st st1 : ParseState)
    (h : KTifJSONObjectEndHandler st = some st1) :
    (MAX_TEST_STEPS ≤ st.steps.length ∧ st1 = st) ∨
    (st.steps.length < MAX_TEST_STEPS ∧ ∃ f, computeFrame st = some f ∧
      st1 = ⟨st.steps ++ [builtStep st.ctx f], st.steps.length + 1,
             { st.ctx with frame := SENTINEL_FRAME }⟩) := by
  unfold KTifJSONObjectEndHandler at h
  by_cases hc : MAX_TEST_STEPS ≤ st.steps.length
  · rw [if_pos hc] at h
    exact Or.inl ⟨hc, (Option.some.inj h).symm⟩
  · rw [if_neg hc] at h
    cases hcf : computeFrame st with
    | none => rw [hcf] at h; exact Option.noConfusion h
    | some f =>
      rw [hcf] at h
      exact Or.inr ⟨Nat.not_le.mp hc, f, rfl, (Option.some.inj h).symm⟩

/-- A parse only appends to the step store. -/
theorem parseObjects_extends :
    ∀ (objs : List ScriptObj) (st st' : ParseState),
      parseObjects objs st = some st' → ∃ tl, st'.steps = st.steps ++ tl := by
  intro objs
  induction objs with
  | nil =>
    intro st st' h
    rw [parseObjects_nil] at h
    exact ⟨[], by rw [← Option.some.inj h, List.append_nil]⟩
  | cons o rest ih =>
    intro st st' h
    rw [parseObjects_cons] at h
    cases hpo : processObject st o with
    | none => rw [hpo] at h; exact Option.noConfusion h
    | some st1 =>
      rw [hpo] at h
      obtain ⟨tl1, h1⟩ := ih st1 st' h
      unfold processObject at hpo
      rcases KTifJSONObjectEndHandler_cases _ _ hpo with ⟨_, rfl⟩ | ⟨_, f, _, rfl⟩
      · exact ⟨tl1, h1⟩
      · refine ⟨builtStep (applyObjectMembers st.ctx o) f :: tl1, ?_⟩
        rw [h1]
        simp

/-- The populated count after a parse is the entry count plus the
object count, capped at capacity. -/
theorem parse_length :
    ∀ (objs : List ScriptObj) (st st' : ParseState),
      parseObjects objs st = some st' → st.steps.length ≤ MAX_TEST_STEPS →
      st'.steps.length = min (st.steps.length + objs.length) MAX_TEST_STEPS := by
  intro objs
  induction objs with
  | nil =>
    intro st st' h hle
    rw [parseObjects_nil] at h
    rw [← Option.some.inj h]
    simp
    omega
  | cons o rest ih =>
    intro st st' h hle
    rw [parseObjects_cons] at h
    cases hpo : processObject st o with
    | none => rw [hpo] at h; exact Option.noConfusion h
    | some st1 =>
      rw [hpo] at h
      replace h : parseObjects rest st1 = some st' := h
      unfold processObject at hpo
      rcases KTifJSONObjectEndHandler_cases _ _ hpo with ⟨hcap, rfl⟩ | ⟨hlt, f, hcf, rfl⟩
      · have hcap2 : MAX_TEST_STEPS ≤ st.steps.length := hcap
        have h2 : st'.steps.length =
            min (st.steps.length + rest.length) MAX_TEST_STEPS :=
          ih { st with ctx := applyObjectMembers st.ctx o } st' h hle
        simp only [List.length_cons]
        omega
      · have hlt2 : st.steps.length < MAX_TEST_STEPS := hlt
        have hlen1 : (st.steps ++
            [builtStep (applyObjectMembers st.ctx o) f]).length =
            st.steps.length + 1 := by simp
        have hb : (st.steps ++
            [builtStep (applyObjectMembers st.ctx o) f]).length ≤ MAX_TEST_STEPS := by
          rw [hlen1]
          omega
        have h2 : st'.steps.length =
            min ((st.steps ++ [builtStep (applyObjectMembers st.ctx o) f]).length
              + rest.length) MAX_TEST_STEPS :=
          ih _ st' h hb
        rw [hlen1] at h2
        simp only [List.length_cons]
        omega

/-- After a parse, last_test_step is either untouched together with
the store, or equals the populated count (it tracks every store). -/
theorem parse_last :
    ∀ (objs : List ScriptObj) (st st' : ParseState),
      parseObjects objs st = some st' →
      (st'.last_test_step = st.last_test_step ∧ st'.steps = st.steps) ∨
      st'.last_test_step = st'.steps.length := by
  intro objs
  induction objs with
  | nil =>
    intro st st' h
    rw [parseObjects_nil] at h
    rw [← Option.some.inj h]
    exact Or.inl ⟨rfl, rfl⟩
  | cons o rest ih =>
    intro st st' h
    rw [parseObjects_cons] at h
    cases hpo : processObject st o with
    | none => rw [hpo] at h; exact Option.noConfusion h
    | some st1 =>
      rw [hpo] at h
      unfold processObject at hpo
      rcases KTifJSONObjectEndHandler_cases _ _ hpo with ⟨hcap, rfl⟩ | ⟨hlt, f, hcf, rfl⟩
      · rcases ih _ st' h with ⟨h1, h2⟩ | h1
        · exact Or.inl ⟨h1, h2⟩
        · exact Or.inr h1
      · rcases ih _ st' h with ⟨h1, h2⟩ | h1
        · refine Or.inr ?_
          rw [h1, h2]
          simp
        · exact Or.inr h1

/-- Unfolding lemma for frameSpecHolds on a present frame member. -/
theorem frameSpecHolds_some (v i cur prev : Nat) :
    frameSpecHolds (some v) i cur prev =
      if v = SENTINEL_FRAME then i ≠ 0 ∧ cur = (prev + 60) % UINT32_MOD
      else cur = v := rfl

/-- Unfolding lemma for frameSpecHolds on an absent frame member. -/
theorem frameSpecHolds_none (i cur prev : Nat) :
    frameSpecHolds none i cur prev =
      (cur = if i = 0 then 0 else (prev + 60) % UINT32_MOD) := rfl

/-- The stored frame of record number i is determined by the frame
member of script object number i (they align one to one below
capacity): an explicit non-sentinel value is stored verbatim; an
omitted frame or an explicit sentinel value stores the previous
record's frame plus 60 reduced modulo 2^32 (32-bit unsigned wrap); an
omitted frame on the very first record stores the zero-initialized
context value 0. The invariant hypotheses
describe any state reachable by parsing from the initial globals. -/
theorem parse_frames :
    ∀ (objs : List ScriptObj) (st st' : ParseState),
      parseObjects objs st = some st' →
      st.steps.length ≤ MAX_TEST_STEPS →
      (st.steps.length < MAX_TEST_STEPS → st.steps ≠ [] →
        st.ctx.frame = SENTINEL_FRAME) →
      (st.steps = [] → st.ctx.frame = 0) →
      ∀ i, st.steps.length ≤ i → i < st'.steps.length →
        frameSpecHolds ((objs.getD (i - st.steps.length) dummyObj).frame) i
          ((st'.steps.getD i dummyStep).frame)
          ((st'.steps.getD (i - 1) dummyStep).frame) := by
  intro objs
  induction objs with
  | nil =>
    intro st st' h _ _ _ i hlo hhi
    rw [parseObjects_nil] at h
    rw [← Option.some.inj h] at hhi
    omega
  | cons o rest ih =>
    intro st st' h hle hctx hemp i hlo hhi
    rw [parseObjects_cons] at h
    cases hpo : processObject st o with
    | none => rw [hpo] at h; exact Option.noConfusion h
    | some st1 =>
      rw [hpo] at h
      replace h : parseObjects rest st1 = some st' := h
      unfold processObject at hpo
      rcases KTifJSONObjectEndHandler_cases _ _ hpo with
        ⟨hcap, hst1⟩ | ⟨hlt, f, hcf, hst1⟩
      · -- the store was already full: nothing is ever stored again,
        -- so no index is in range
        have hcap2 : MAX_TEST_STEPS ≤ st.steps.length := hcap
        have hsteps1c : st1.steps = st.steps := by rw [hst1]
        have hle1 : st1.steps.length ≤ MAX_TEST_STEPS := by
          rw [hsteps1c]
          exact hle
        have hlen := parse_length rest st1 st' h hle1
        rw [hsteps1c] at hlen
        omega
      · have hlt2 : st.steps.length < MAX_TEST_STEPS := hlt
        have hsteps1 : st1.steps =
            st.steps ++ [builtStep (applyObjectMembers st.ctx o) f] := by
          rw [hst1]
        have hctxf1 : st1.ctx.frame = SENTINEL_FRAME := by rw [hst1]
        have hlen1 : st1.steps.length = st.steps.length + 1 := by
          rw [hsteps1]
          simp
        obtain ⟨tl, htl⟩ := parseObjects_extends rest st1 st' h
        have hsteps' : st'.steps = st.steps ++
            builtStep (applyObjectMembers st.ctx o) f :: tl := by
          rw [htl, hsteps1, List.append_assoc]
          rfl
        by_cases hi0 : i = st.steps.length
        · -- i addresses the record stored from o itself
          subst hi0
          have hcur : st'.steps.getD st.steps.length dummyStep =
              builtStep (applyObjectMembers st.ctx o) f := by
            rw [hsteps']
            exact getD_append_self st.steps _ tl dummyStep
          have hobj : (o :: rest).getD (st.steps.length - st.steps.length) dummyObj
              = o := by
            rw [Nat.sub_self]
            rfl
          rw [hobj, hcur]
          have hbf : (builtStep (applyObjectMembers st.ctx o) f).frame = f := rfl
          rw [hbf]
          rcases computeFrame_spec _ f hcf with ⟨hns, hf⟩ | ⟨hs, hne, hf⟩
          · -- an explicit, non-sentinel frame member was seen
            have hns2 : (applyObjectMembers st.ctx o).frame ≠ SENTINEL_FRAME := hns
            have hf2 : f = (applyObjectMembers st.ctx o).frame := hf
            cases hof : o.frame with
            | some v =>
              have hcv : (applyObjectMembers st.ctx o).frame = v := by
                simp [applyObjectMembers, hof]
              rw [frameSpecHolds_some,
                if_neg (fun hv => hns2 (hcv.trans hv)), hf2, hcv]
            | none =>
              have hcv : (applyObjectMembers st.ctx o).frame = st.ctx.frame := by
                simp [applyObjectMembers, hof]
              by_cases hnil : st.steps = []
              · have h0 : st.ctx.frame = 0 := hemp hnil
                have hl0 : st.steps.length = 0 := by rw [hnil]; rfl
                rw [frameSpecHolds_none, if_pos hl0, hf2, hcv, h0]
              · exact absurd (hcv.trans (hctx hlt2 hnil)) hns2
          · -- the sentinel was in the context: default-fill applies
            have hs2 : (applyObjectMembers st.ctx o).frame = SENTINEL_FRAME := hs
            have hne2 : st.steps ≠ [] := hne
            have hf2 : f =
                ((st.steps.getD (st.steps.length - 1) dummyStep).frame + 60)
                  % UINT32_MOD := hf
            have hposl : 0 < st.steps.length := List.length_pos.mpr hne2
            have hprev : st'.steps.getD (st.steps.length - 1) dummyStep =
                st.steps.getD (st.steps.length - 1) dummyStep := by
              rw [hsteps']
              apply getD_append_left
              omega
            cases hof : o.frame with
            | some v =>
              have hcv : (applyObjectMembers st.ctx o).frame = v := by
                simp [applyObjectMembers, hof]
              have hv : v = SENTINEL_FRAME := hcv.symm.trans hs2
              rw [frameSpecHolds_some, if_pos hv]
              refine ⟨by omega, ?_⟩
              rw [hprev]
              exact hf2
            | none =>
              rw [frameSpecHolds_none,
                if_neg (by omega : ¬st.steps.length = 0), hprev]
              exact hf2
        · -- i addresses a record stored while parsing the tail
          have hge : st.steps.length + 1 ≤ i := by omega
          have hctx1 : st1.steps.length < MAX_TEST_STEPS → st1.steps ≠ [] →
              st1.ctx.frame = SENTINEL_FRAME := fun _ _ => hctxf1
          have hemp1 : st1.steps = [] → st1.ctx.frame = 0 := by
            intro habs
            rw [hsteps1] at habs
            exact absurd habs (by simp)
          have hle1 : st1.steps.length ≤ MAX_TEST_STEPS := by
            rw [hlen1]
            omega
          have ihr := ih st1 st' h hle1 hctx1 hemp1 i (by rw [hlen1]; omega) hhi
          rw [hlen1] at ihr
          have hidx : (o :: rest).getD (i - st.steps.length) dummyObj =
              rest.getD (i - (st.steps.length + 1)) dummyObj := by
            have hsub : i - st.steps.length = (i - (st.steps.length + 1)) + 1 := by
              omega
            rw [hsub]
            rfl
          rw [hidx]
          exact ihr

/-- Unfolding lemma for input_test_file_read on parsed content. -/
theorem input_test_file_read_content (objs : List ScriptObj) (mal : Bool) :
    input_test_file_read (ReadInput.content objs mal) =
      match parseObjects objs initialParseState with
      | none => none
      | some st =>
          some ⟨st, true,
                if MAX_TEST_STEPS ≤ st.last_test_step then true else false⟩ := rfl

/-- C2 counterexample: for the one-object script that omits frame, the
stored frame of the very first record is 0 (the zero-initialized
parse context), not the sentinel value plus 60. -/
theorem first_omitted_frame_cex :
    parseObjects scriptOmitFirst initialParseState = some stOmitFirst ∧
    (stOmitFirst.steps.getD 0 dummyStep).frame = 0 ∧
    (stOmitFirst.steps.getD 0 dummyStep).frame ≠ SENTINEL_FRAME + 60 := by
  refine ⟨by decide, by decide, by decide⟩

/-- C2 (amended): a record whose script object omits the frame member
stores the previous record's frame plus 60, reduced modulo 2^32
(32-bit unsigned wrap), except for the very first record, which
stores 0 (the zero-initialized context value, not the sentinel value
plus 60). -/
theorem omitted_frame_default (objs : List ScriptObj) (st' : ParseState)
    (h : parseObjects objs initialParseState = some st')
    (i : Nat) (hi : i < st'.steps.length)
    (hof : (objs.getD i dummyObj).frame = none) :
    (st'.steps.getD i dummyStep).frame =
      if i = 0 then 0
      else ((st'.steps.getD (i - 1) dummyStep).frame + 60) % UINT32_MOD := by
  have hsp := parse_frames objs initialParseState st' h (by decide)
    (by intro _ hne; exact absurd rfl hne) (fun _ => rfl) i (Nat.zero_le i) hi
  have hidx : i - initialParseState.steps.length = i := Nat.sub_zero i
  rw [hidx, hof, frameSpecHolds_none] at hsp
  exact hsp

/-- C2 witness: in the two-object script with both frames omitted, the
second record stores the first record's frame plus 60. -/
theorem omitted_frame_default_witness :
    (stOmitBoth.steps.getD 1 dummyStep).frame =
      if (1 : Nat) = 0 then 0
      else ((stOmitBoth.steps.getD 0 dummyStep).frame + 60) % UINT32_MOD :=
  omitted_frame_default scriptOmitBoth stOmitBoth (by decide) 1 (by decide)
    (by decide)

/-- C10 counterexample: when the previous record's frame is 65475, an
object that explicitly sets frame to 65535 stores exactly 65535 (the
sentinel value itself), contradicting the claim that the stored frame
is never 65535. -/
theorem explicit_sentinel_stored_cex :
    parseObjects scriptNearSentinel initialParseState = some stNearSentinel ∧
    (scriptNearSentinel.getD 1 dummyObj).frame = some SENTINEL_FRAME ∧
    (stNearSentinel.steps.getD 1 dummyStep).frame = SENTINEL_FRAME := by
  refine ⟨by decide, by decide, by decide⟩

/-- C10 (amended): a parsed record whose object explicitly sets frame
to 65535 is treated exactly like an omitted frame: it is never the
first record (the first record going through the sentinel branch is
an out-of-bounds read, modelled as parse failure) and it stores the
previous record's frame plus 60, reduced modulo 2^32 (32-bit unsigned
wrap). -/
theorem explicit_sentinel_frame (objs : List ScriptObj) (st' : ParseState)
    (h : parseObjects objs initialParseState = some st')
    (i : Nat) (hi : i < st'.steps.length)
    (hof : (objs.getD i dummyObj).frame = some SENTINEL_FRAME) :
    i ≠ 0 ∧ (st'.steps.getD i dummyStep).frame =
      ((st'.steps.getD (i - 1) dummyStep).frame + 60) % UINT32_MOD := by
  have hsp := parse_frames objs initialParseState st' h (by decide)
    (by intro _ hne; exact absurd rfl hne) (fun _ => rfl) i (Nat.zero_le i) hi
  have hidx : i - initialParseState.steps.length = i := Nat.sub_zero i
  rw [hidx, hof, frameSpecHolds_some, if_pos rfl] at hsp
  exact hsp

/-- C10 witness: with a first frame of 10, an explicit second frame of
65535 stores 70 = 10 + 60. -/
theorem explicit_sentinel_frame_witness :
    (1 : Nat) ≠ 0 ∧ (stExplicitSentinel.steps.getD 1 dummyStep).frame =
      ((stExplicitSentinel.steps.getD 0 dummyStep).frame + 60) % UINT32_MOD :=
  explicit_sentinel_frame scriptExplicitSentinel stExplicitSentinel (by decide)
    1 (by decide) (by decide)

/-- C9 counterexample: the script with explicit frames 100 then 5
parses into a store whose frames strictly decrease, so the stored
frames are not monotonically non-decreasing for every successfully
parsed script. -/
theorem frames_not_monotone_cex :
    parseObjects scriptDecreasing initialParseState = some stDecreasing ∧
    ¬((stDecreasing.steps.getD 0 dummyStep).frame ≤
      (stDecreasing.steps.getD 1 dummyStep).frame) := by
  refine ⟨by decide, by decide⟩

/-- C9 (amended): the stored frames are monotonically non-decreasing
for every successfully parsed script in which every object after the
first omits its frame member and the default-fill chain stays below
the 32-bit wrap (first stored frame plus 60 times the populated count
below 2^32). The default-fill rule only enforces monotonicity for
omitted frames: explicit frames are stored verbatim and may decrease,
and a chain that wraps past 2^32 decreases as well. -/
theorem frames_monotone_when_omitted (objs : List ScriptObj) (st' : ParseState)
    (h : parseObjects objs initialParseState = some st')
    (homit : ∀ k, 1 ≤ k → k < objs.length → (objs.getD k dummyObj).frame = none)
    (hnw : (st'.steps.getD 0 dummyStep).frame + 60 * st'.steps.length
      < UINT32_MOD) :
    ∀ i j, i ≤ j → j < st'.steps.length →
      (st'.steps.getD i dummyStep).frame ≤ (st'.steps.getD j dummyStep).frame := by
  have hlen : st'.steps.length = min objs.length MAX_TEST_STEPS := by
    have hl := parse_length objs initialParseState st' h (by decide)
    simpa [initialParseState] using hl
  have hstep : ∀ k, 1 ≤ k → k < st'.steps.length →
      (st'.steps.getD k dummyStep).frame =
        ((st'.steps.getD (k - 1) dummyStep).frame + 60) % UINT32_MOD := by
    intro k hk1 hk2
    have hkobj : k < objs.length := by omega
    have hsp := parse_frames objs initialParseState st' h (by decide)
      (by intro _ hne; exact absurd rfl hne) (fun _ => rfl) k (Nat.zero_le k) hk2
    have hidx : k - initialParseState.steps.length = k := Nat.sub_zero k
    rw [hidx, homit k hk1 hkobj, frameSpecHolds_none,
      if_neg (by omega : ¬k = 0)] at hsp
    exact hsp
  have harith : ∀ k, k < st'.steps.length →
      (st'.steps.getD k dummyStep).frame =
        (st'.steps.getD 0 dummyStep).frame + 60 * k := by
    intro k
    induction k with
    | zero =>
      intro _
      omega
    | succ n ihn =>
      intro hlt
      have h1 := ihn (by omega)
      have h2 := hstep (n + 1) (by omega) hlt
      have h3 : st'.steps.getD (n + 1 - 1) dummyStep
          = st'.steps.getD n dummyStep := by
        have hsub : n + 1 - 1 = n := by omega
        rw [hsub]
      rw [h3, h1] at h2
      have hlt2 : (st'.steps.getD 0 dummyStep).frame + 60 * n + 60
          < UINT32_MOD := by
        omega
      rw [Nat.mod_eq_of_lt hlt2] at h2
      omega
  intro i j hij hj
  have hi := harith i (by omega)
  have hjv := harith j hj
  omega

/-- C9 witness: explicit first frame 10 followed by an omitted frame
gives the non-decreasing stored frames 10 then 70, far below the
32-bit wrap. -/
theorem frames_monotone_when_omitted_witness :
    (stMono.steps.getD 0 dummyStep).frame ≤ (stMono.steps.getD 1 dummyStep).frame :=
  frames_monotone_when_omitted scriptMono stMono (by decide)
    (by
      intro k hk1 hk2
      have hl : scriptMono.length = 2 := rfl
      rw [hl] at hk2
      have hk : k = 1 := by omega
      subst hk
      decide)
    (by decide)
    0 1 (by decide) (by decide)

/-- C4: after initialization on a script of N well-formed objects, the
populated count (store length and last_test_step alike) is N capped
at MAX_TEST_STEPS, and when N exceeds MAX_TEST_STEPS the single
overflow warning of input_test_file_read has fired. -/
theorem capacity_policy (objs : List ScriptObj) (mal : Bool) (r : ReadResult)
    (h : test_input_init (ReadInput.content objs mal) = some r) :
    r.state.steps.length = min objs.length MAX_TEST_STEPS ∧
    r.state.last_test_step = min objs.length MAX_TEST_STEPS ∧
    (MAX_TEST_STEPS < objs.length → r.overflow_warned = true) := by
  cases hp : parseObjects objs initialParseState with
  | none =>
    have hread : input_test_file_read (ReadInput.content objs mal) = none := by
      rw [input_test_file_read_content, hp]
    unfold test_input_init at h
    rw [hread] at h
    exact Option.noConfusion h
  | some st =>
    have hread : input_test_file_read (ReadInput.content objs mal) =
        some ⟨st, true, if MAX_TEST_STEPS ≤ st.last_test_step then true
                        else false⟩ := by
      rw [input_test_file_read_content, hp]
    unfold test_input_init at h
    rw [hread] at h
    replace h : (⟨⟨st.steps,
        if MAX_TEST_STEPS < st.last_test_step then 0 else st.last_test_step,
        st.ctx⟩, true,
        if MAX_TEST_STEPS ≤ st.last_test_step then true else false⟩ : ReadResult)
        = r := Option.some.inj h
    subst h
    have hM : MAX_TEST_STEPS = 200 := rfl
    have hlen2 : st.steps.length = min objs.length MAX_TEST_STEPS := by
      have hl := parse_length objs initialParseState st hp (by decide)
      simpa [initialParseState] using hl
    refine ⟨hlen2, ?_, ?_⟩
    · show (if MAX_TEST_STEPS < st.last_test_step then 0 else st.last_test_step)
        = min objs.length MAX_TEST_STEPS
      rcases parse_last objs initialParseState st hp with ⟨h1, h2⟩ | h1
      · have h201 : st.last_test_step = MAX_TEST_STEPS + 1 := h1
        have hnil : st.steps.length = 0 := by rw [h2]; rfl
        rw [h201, if_pos (by omega)]
        omega
      · rw [h1, hlen2, if_neg (by omega)]
    · show MAX_TEST_STEPS < objs.length →
        (if MAX_TEST_STEPS ≤ st.last_test_step then true else false) = true
      intro hN
      rcases parse_last objs initialParseState st hp with ⟨h1, h2⟩ | h1
      · have hnil : st.steps.length = 0 := by rw [h2]; rfl
        exfalso
        omega
      · rw [h1, hlen2, if_pos (by omega)]

/-- C4 witness: the two-object script gives count 2 with no overflow
warning obligation. -/
theorem capacity_policy_witness :
    resMono.state.steps.length = min scriptMono.length MAX_TEST_STEPS ∧
    resMono.state.last_test_step = min scriptMono.length MAX_TEST_STEPS ∧
    (MAX_TEST_STEPS < scriptMono.length → resMono.overflow_warned = true) :=
  capacity_policy scriptMono false resMono (by decide)

/-- C7: a read of a token stream that turns malformed after its
complete objects still returns success (best effort), retains exactly
the records parsed before the error (the malformed flag changes
nothing), while a missing or unreadable script file is the distinct
non-fatal case: the read returns false and initialization leaves the
engine with zero steps. -/
theorem partial_parse_kept (objs : List ScriptObj) (mal : Bool)
    (r rm : ReadResult)
    (hc : input_test_file_read (ReadInput.content objs mal) = some r)
    (hm : test_input_init ReadInput.missing = some rm) :
    r.success = true ∧
    r.state.steps.length = min objs.length MAX_TEST_STEPS ∧
    input_test_file_read (ReadInput.content objs true) =
      input_test_file_read (ReadInput.content objs false) ∧
    rm.success = false ∧ rm.state.steps = [] ∧
    rm.state.last_test_step = 0 := by
  have hmm : test_input_init ReadInput.missing = some resMissing := by decide
  rw [hmm] at hm
  replace hm := Option.some.inj hm
  subst hm
  cases hp : parseObjects objs initialParseState with
  | none =>
    have hread : input_test_file_read (ReadInput.content objs mal) = none := by
      rw [input_test_file_read_content, hp]
    rw [hread] at hc
    exact Option.noConfusion hc
  | some st =>
    have hread : ∀ b : Bool, input_test_file_read (ReadInput.content objs b) =
        some ⟨st, true, if MAX_TEST_STEPS ≤ st.last_test_step then true
                        else false⟩ := by
      intro b
      rw [input_test_file_read_content, hp]
    rw [hread mal] at hc
    replace hc := Option.some.inj hc
    subst hc
    refine ⟨rfl, ?_, ?_, rfl, rfl, rfl⟩
    · show st.steps.length = min objs.length MAX_TEST_STEPS
      have hl := parse_length objs initialParseState st hp (by decide)
      simpa [initialParseState] using hl
    · rw [hread true, hread false]

/-- C7 witness: the two-object script read with a trailing parse error
keeps both records and returns true; a missing file returns false and
leaves zero steps after initialization. -/
theorem partial_parse_kept_witness :
    resMono.success = true ∧
    resMono.state.steps.length = min scriptMono.length MAX_TEST_STEPS ∧
    input_test_file_read (ReadInput.content scriptMono true) =
      input_test_file_read (ReadInput.content scriptMono false) ∧
    resMissing.success = false ∧ resMissing.state.steps = [] ∧
    resMissing.state.last_test_step = 0 :=
  partial_parse_kept scriptMono true resMono resMissing (by decide) (by decide)
